import Mathlib

/-!
Shallow embedding of `src/enterprise_value.py`, a stateless library of seven
closed-form valuation functions over floating-point scalars, here modelled
over the reals.

Python runtime semantics embedded faithfully:
- `a / b` raises `ZeroDivisionError` when `b == 0`; the spec's single error
  kind `DomainError` is realised in the code exclusively by this exception,
  so the embedding's error type is named `DomainError` with the single
  constructor recording the concrete Python exception.
- `b ** t` on floats raises `ZeroDivisionError` when `b == 0 ∧ t < 0`,
  returns a complex number (principal branch) when `b < 0` and `t` is not an
  integral value, and otherwise returns the real power `b ^ t`
  (with `0.0 ** 0.0 == 1.0`, matching `Real.rpow`).
A value flowing through the formulas is therefore either a real or a complex
number, modelled by `PyNum`.
-/

namespace EnterpriseValue

/-- The spec's single error kind; in the source it is Python's
`ZeroDivisionError`, the only exception the code can raise. -/
inductive DomainError where
  | zeroDivisionError
deriving DecidableEq

/-- A Python numeric value produced by the formulas: `float` or `complex`. -/
inductive PyNum where
  | real (x : ℝ)
  | complex (z : ℂ)

/-- The proposition that `t` is an integral real value (Python's integral-exponent check). -/
def isIntR (t : ℝ) : Prop := ∃ n : ℤ, (n : ℝ) = t

open Classical

/-- Python float exponentiation `b ** t`. -/
noncomputable def pypow (b t : ℝ) : Except DomainError PyNum :=
  if b = 0 ∧ t < 0 then .error .zeroDivisionError
  else if b < 0 ∧ ¬ isIntR t then .ok (.complex ((b : ℂ) ^ (t : ℂ)))
  else .ok (.real (b ^ t))

/-- Python division of a float `a` by a previously computed numeric value. -/
noncomputable def pydiv (a : ℝ) : PyNum → Except DomainError PyNum
  | .real p => if p = 0 then .error .zeroDivisionError else .ok (.real (a / p))
  | .complex z =>
      if z = 0 then .error .zeroDivisionError else .ok (.complex ((a : ℂ) / z))

/-- Python multiplication of numeric values (`float * complex` is complex). -/
def pymul : PyNum → PyNum → PyNum
  | .real a, .real b => .real (a * b)
  | .real a, .complex w => .complex ((a : ℂ) * w)
  | .complex z, .real b => .complex (z * (b : ℂ))
  | .complex z, .complex w => .complex (z * w)

/-- Whether a call raised (the embedding's image of a Python exception). -/
def isErr {α : Type} : Except DomainError α → Bool
  | .error _ => true
  | .ok _ => false

/-- Source `value`: computes `fcff / (1 + r) ** t` (source line 23). -/
noncomputable def value (fcff r t : ℝ) : Except DomainError PyNum :=
  match pypow (1 + r) t with
  | .error e => .error e
  | .ok p => pydiv fcff p

/-- Source `future_free_cash_flow(nopat, ic, g=None)`: if `g` is supplied the
invested-capital change is `ic * g`, else it is `ic` itself
(source lines 43–45). -/
noncomputable def future_free_cash_flow (nopat ic : ℝ) (g : Option ℝ) : ℝ :=
  match g with
  | some gv => nopat - ic * gv
  | none => nopat - ic

/-- Source `return_on_invested_capital`: computes `nopat / ic` (source line 65). -/
noncomputable def return_on_invested_capital (nopat ic : ℝ) :
    Except DomainError ℝ :=
  if ic = 0 then .error .zeroDivisionError else .ok (nopat / ic)

/-- Source `value_2`: computes `(nopat * (1 - g/roic)) / (r - g)`
(source line 83); `g / roic` is evaluated first, then the outer division. -/
noncomputable def value_2 (nopat g roic r : ℝ) : Except DomainError ℝ :=
  if roic = 0 then .error .zeroDivisionError
  else if r - g = 0 then .error .zeroDivisionError
  else .ok ((nopat * (1 - g / roic)) / (r - g))

/-- Source `economic_profit(nopat_1, ic_0, r, f, g, t=1)`: computes
`((nopat_1/ic_0) - r) * (1-f)**(t-1) * (1+g)**(t-1) * ic_0`
(source lines 121–125). The source's default `t=1` is passed explicitly.
`term1` is evaluated first (raising when `ic_0 = 0`), then the two powers. -/
noncomputable def economic_profit (nopat_1 ic_0 r f g t : ℝ) :
    Except DomainError PyNum :=
  if ic_0 = 0 then .error .zeroDivisionError
  else
    match pypow (1 - f) (t - 1) with
    | .error e => .error e
    | .ok term2 =>
        match pypow (1 + g) (t - 1) with
        | .error e => .error e
        | .ok term3 =>
            .ok (pymul (pymul (pymul (.real ((nopat_1 / ic_0) - r)) term2)
              term3) (.real ic_0))

/-- Source `EV_fade`: computes `ic_0 + ep_1 / term2` with
`ep_1 = ((nopat_1/ic_0) - r) * ic_0` and
`term2 = r - (1+g)*(1-f) + 1` (source lines 137–139). -/
noncomputable def EV_fade (nopat_1 ic_0 r f g : ℝ) : Except DomainError ℝ :=
  if ic_0 = 0 then .error .zeroDivisionError
  else if r - (1 + g) * (1 - f) + 1 = 0 then .error .zeroDivisionError
  else .ok (ic_0 + (((nopat_1 / ic_0) - r) * ic_0) /
    (r - (1 + g) * (1 - f) + 1))

/-- Source `EV_fade2`: computes
`(nopat_1 * (1 - (g - f)/roic_1)) / (r - g + f)` (source lines 153–155). -/
noncomputable def EV_fade2 (nopat_1 roic_1 r f g : ℝ) :
    Except DomainError ℝ :=
  if roic_1 = 0 then .error .zeroDivisionError
  else if r - g + f = 0 then .error .zeroDivisionError
  else .ok ((nopat_1 * (1 - (g - f) / roic_1)) / (r - g + f))

/-! ### Helper lemmas about the embedded Python exponentiation -/

lemma isIntR_zero : isIntR 0 := ⟨0, by norm_num⟩

lemma isIntR_intCast (n : ℤ) : isIntR (n : ℝ) := ⟨n, rfl⟩

lemma not_isIntR_half : ¬ isIntR ((2 : ℝ)⁻¹) := by
  rintro ⟨n, hn⟩
  rcases le_or_lt n 0 with h | h
  · have : (n : ℝ) ≤ 0 := by exact_mod_cast h
    rw [hn] at this
    norm_num at this
  · have h1 : (1 : ℤ) ≤ n := h
    have : (1 : ℝ) ≤ (n : ℝ) := by exact_mod_cast h1
    rw [hn] at this
    norm_num at this

lemma pypow_of_pos {b : ℝ} (t : ℝ) (hb : 0 < b) :
    pypow b t = .ok (.real (b ^ t)) := by
  unfold pypow
  rw [if_neg, if_neg]
  · rintro ⟨h, -⟩
    exact absurd h (not_lt.mpr hb.le)
  · rintro ⟨h, -⟩
    exact hb.ne' h

lemma pypow_zero_of_neg {t : ℝ} (ht : t < 0) :
    pypow 0 t = .error .zeroDivisionError := by
  unfold pypow
  rw [if_pos ⟨rfl, ht⟩]

lemma pypow_zero_of_nonneg {t : ℝ} (ht : 0 ≤ t) :
    pypow 0 t = .ok (.real ((0 : ℝ) ^ t)) := by
  unfold pypow
  rw [if_neg, if_neg]
  · rintro ⟨h, -⟩
    exact absurd h (lt_irrefl 0)
  · rintro ⟨-, h⟩
    exact absurd ht (not_le.mpr h)

lemma pypow_of_neg_int {b t : ℝ} (hb : b < 0) (ht : isIntR t) :
    pypow b t = .ok (.real (b ^ t)) := by
  unfold pypow
  rw [if_neg, if_neg]
  · rintro ⟨-, h⟩
    exact h ht
  · rintro ⟨h, -⟩
    rw [h] at hb
    exact lt_irrefl 0 hb

lemma pypow_of_neg_nonint {b t : ℝ} (hb : b < 0) (ht : ¬ isIntR t) :
    pypow b t = .ok (.complex ((b : ℂ) ^ (t : ℂ))) := by
  unfold pypow
  rw [if_neg, if_pos ⟨hb, ht⟩]
  rintro ⟨h, -⟩
  rw [h] at hb
  exact lt_irrefl 0 hb

lemma pypow_exp_zero (b : ℝ) : pypow b 0 = .ok (.real 1) := by
  rcases lt_trichotomy b 0 with hb | hb | hb
  · rw [pypow_of_neg_int hb isIntR_zero, Real.rpow_zero]
  · subst hb
    rw [pypow_zero_of_nonneg le_rfl, Real.rpow_zero]
  · rw [pypow_of_pos 0 hb, Real.rpow_zero]

/-- When the real power is well defined (positive base; zero base with
nonnegative exponent; negative base with integral exponent), `pypow`
returns the real value `b ^ t`. -/
def powReal (b e : ℝ) : Prop :=
  0 < b ∨ (b = 0 ∧ 0 ≤ e) ∨ (b < 0 ∧ isIntR e)

lemma pypow_of_powReal {b e : ℝ} (h : powReal b e) :
    pypow b e = .ok (.real (b ^ e)) := by
  rcases h with h | ⟨rfl, h⟩ | ⟨h1, h2⟩
  · exact pypow_of_pos e h
  · exact pypow_zero_of_nonneg h
  · exact pypow_of_neg_int h1 h2

lemma rpow_ne_zero_of_base_ne_zero {b e : ℝ} (hb : b ≠ 0)
    (h : powReal b e) : b ^ e ≠ 0 := by
  rcases h with h | ⟨rfl, -⟩ | ⟨h1, n, hn⟩
  · exact (Real.rpow_pos_of_pos h e).ne.symm
  · exact absurd rfl hb
  · rw [← hn, Real.rpow_intCast]
    exact zpow_ne_zero n hb

lemma powReal_exp_zero (b : ℝ) : powReal b 0 := by
  rcases lt_trichotomy b 0 with hb | hb | hb
  · exact Or.inr (Or.inr ⟨hb, isIntR_zero⟩)
  · exact Or.inr (Or.inl ⟨hb, le_rfl⟩)
  · exact Or.inl hb

@[simp]
lemma isErr_ok {α : Type} (a : α) :
    isErr (.ok a : Except DomainError α) = false := rfl

@[simp]
lemma isErr_error {α : Type} (e : DomainError) :
    isErr (.error e : Except DomainError α) = true := rfl

lemma pydiv_real_of_ne {a p : ℝ} (h : p ≠ 0) :
    pydiv a (.real p) = .ok (.real (a / p)) := by
  simp only [pydiv]
  rw [if_neg h]

lemma pydiv_real_zero (a : ℝ) :
    pydiv a (.real 0) = .error .zeroDivisionError := by
  simp only [pydiv]
  rw [if_pos trivial]

lemma pydiv_complex_of_ne {a : ℝ} {z : ℂ} (h : z ≠ 0) :
    pydiv a (.complex z) = .ok (.complex ((a : ℂ) / z)) := by
  simp only [pydiv]
  rw [if_neg h]

lemma value_of_pow_ok {fcff r t : ℝ} {p : PyNum}
    (h : pypow (1 + r) t = .ok p) : value fcff r t = pydiv fcff p := by
  unfold value
  rw [h]

lemma value_of_pow_err {fcff r t : ℝ} {e : DomainError}
    (h : pypow (1 + r) t = .error e) : value fcff r t = .error e := by
  unfold value
  rw [h]

lemma economic_profit_of_powReal {nopat_1 ic_0 r f g t : ℝ} (h0 : ic_0 ≠ 0)
    (h1 : powReal (1 - f) (t - 1)) (h2 : powReal (1 + g) (t - 1)) :
    economic_profit nopat_1 ic_0 r f g t =
      .ok (.real (((nopat_1 / ic_0) - r) * (1 - f) ^ (t - 1) *
        (1 + g) ^ (t - 1) * ic_0)) := by
  unfold economic_profit
  rw [if_neg h0, pypow_of_powReal h1, pypow_of_powReal h2]
  rfl

/-! ### Claim theorems -/

/-- C2: `return_on_invested_capital(nopat, ic)` returns `nopat / ic` for
every `ic ≠ 0`, and raises `DomainError` exactly when `ic = 0`. -/
theorem return_on_invested_capital_spec (nopat ic : ℝ) :
    (ic ≠ 0 → return_on_invested_capital nopat ic = .ok (nopat / ic))
    ∧ (isErr (return_on_invested_capital nopat ic) = true ↔ ic = 0) := by
  unfold return_on_invested_capital
  constructor
  · intro h
    rw [if_neg h]
  · constructor
    · intro h
      by_contra hic
      rw [if_neg hic] at h
      simp at h
    · intro h
      rw [if_pos h]
      rfl

/-- Witness for C2: `return_on_invested_capital(50, 0)` raises, and
`return_on_invested_capital(100, 4) = 25`. -/
theorem return_on_invested_capital_witness :
    isErr (return_on_invested_capital 50 0) = true
    ∧ return_on_invested_capital 100 4 = Except.ok 25 := by
  constructor
  · exact (return_on_invested_capital_spec 50 0).2.mpr rfl
  · have h := (return_on_invested_capital_spec 100 4).1 (by norm_num)
    rw [h]
    norm_num

/-- C3: `future_free_cash_flow` is dual-mode: with `g` supplied it returns
`nopat - ic * g`, with `g` unset it returns `nopat - ic`. -/
theorem future_free_cash_flow_spec (nopat ic gv : ℝ) :
    future_free_cash_flow nopat ic (some gv) = nopat - ic * gv
    ∧ future_free_cash_flow nopat ic none = nopat - ic :=
  ⟨rfl, rfl⟩

/-- C4: supplying `g = 0` is distinguished from leaving `g` unset: the
result is `nopat` (since `ic * 0 = 0`), which differs from the unset-mode
result `nopat - ic` whenever `ic ≠ 0`. -/
theorem future_free_cash_flow_g_zero (nopat ic : ℝ) :
    future_free_cash_flow nopat ic (some 0) = nopat
    ∧ (ic ≠ 0 →
        future_free_cash_flow nopat ic (some 0) ≠ nopat - ic) := by
  constructor
  · show nopat - ic * 0 = nopat
    ring
  · intro h he
    apply h
    have : nopat - ic * 0 = nopat - ic := he
    rw [mul_zero] at this
    linarith

/-- Witness for C4 at `nopat = 120`, `ic = 15`. -/
theorem future_free_cash_flow_g_zero_witness :
    future_free_cash_flow 120 15 (some 0) = 120
    ∧ future_free_cash_flow 120 15 (some 0) ≠ 120 - 15 :=
  ⟨(future_free_cash_flow_g_zero 120 15).1,
    (future_free_cash_flow_g_zero 120 15).2 (by norm_num)⟩

/-- C5: `value_2` (spec name `perpetuity_value`) returns
`(nopat * (1 - g/roic)) / (r - g)` whenever `roic ≠ 0` and `r ≠ g`, and
raises `DomainError` exactly when `roic = 0` or `r = g`. -/
theorem value_2_spec (nopat g roic r : ℝ) :
    (roic ≠ 0 → r ≠ g →
      value_2 nopat g roic r = .ok ((nopat * (1 - g / roic)) / (r - g)))
    ∧ (isErr (value_2 nopat g roic r) = true ↔ roic = 0 ∨ r = g) := by
  unfold value_2
  constructor
  · intro h1 h2
    rw [if_neg h1, if_neg (sub_ne_zero.mpr h2)]
  · constructor
    · intro h
      by_contra hc
      push_neg at hc
      rw [if_neg hc.1, if_neg (sub_ne_zero.mpr hc.2)] at h
      simp at h
    · rintro (h | h)
      · rw [if_pos h]
        rfl
      · by_cases hroic : roic = 0
        · rw [if_pos hroic]
          rfl
        · rw [if_neg hroic, if_pos (by rw [h, sub_self])]
          rfl

/-- Witness for C5: the spec's example
`perpetuity_value(100, 0.03, 0.12, 0.08) = 1500`, and the error cases. -/
theorem value_2_witness :
    value_2 100 (3/100) (12/100) (8/100) = Except.ok 1500
    ∧ isErr (value_2 100 (3/100) 0 (8/100)) = true
    ∧ isErr (value_2 100 (3/100) (12/100) (3/100)) = true := by
  refine ⟨?_, (value_2_spec 100 (3/100) 0 (8/100)).2.mpr (Or.inl rfl),
    (value_2_spec 100 (3/100) (12/100) (3/100)).2.mpr (Or.inr rfl)⟩
  have h := (value_2_spec 100 (3/100) (12/100) (8/100)).1
    (by norm_num) (by norm_num)
  rw [h]
  norm_num

/-- C7: `EV_fade` (spec name `enterprise_value_fade`) returns
`ic_0 + ep_1 / (r - (1+g)*(1-f) + 1)` with
`ep_1 = ((nopat_1/ic_0) - r) * ic_0` whenever `ic_0 ≠ 0` and the
denominator is nonzero, and raises `DomainError` exactly when `ic_0 = 0`
or the denominator is zero. -/
theorem EV_fade_spec (nopat_1 ic_0 r f g : ℝ) :
    (ic_0 ≠ 0 → r - (1 + g) * (1 - f) + 1 ≠ 0 →
      EV_fade nopat_1 ic_0 r f g =
        .ok (ic_0 + (((nopat_1 / ic_0) - r) * ic_0) /
          (r - (1 + g) * (1 - f) + 1)))
    ∧ (isErr (EV_fade nopat_1 ic_0 r f g) = true ↔
        ic_0 = 0 ∨ r - (1 + g) * (1 - f) + 1 = 0) := by
  unfold EV_fade
  constructor
  · intro h1 h2
    rw [if_neg h1, if_neg h2]
  · constructor
    · intro h
      by_contra hc
      push_neg at hc
      rw [if_neg hc.1, if_neg hc.2] at h
      simp at h
    · rintro (h | h)
      · rw [if_pos h]
        rfl
      · by_cases hic : ic_0 = 0
        · rw [if_pos hic]
          rfl
        · rw [if_neg hic, if_pos h]
          rfl

/-- Witness for C7: the spec's example
`EV_fade(100, 800, 0.09, 0.2, 0.03) = 800 + 28/0.266 = 17200/19`. -/
theorem EV_fade_witness :
    EV_fade 100 800 (9/100) (1/5) (3/100) = Except.ok (17200/19) := by
  have h := (EV_fade_spec 100 800 (9/100) (1/5) (3/100)).1
    (by norm_num) (by norm_num)
  rw [h]
  norm_num

/-- C8: `EV_fade2` (spec name `enterprise_value_fade_from_roic`) returns
`nopat_1 * (1 - (g - f)/roic_1) / (r - g + f)` whenever `roic_1 ≠ 0` and
`r - g + f ≠ 0`, and raises `DomainError` exactly when `roic_1 = 0` or
`r - g + f = 0`. -/
theorem EV_fade2_spec (nopat_1 roic_1 r f g : ℝ) :
    (roic_1 ≠ 0 → r - g + f ≠ 0 →
      EV_fade2 nopat_1 roic_1 r f g =
        .ok ((nopat_1 * (1 - (g - f) / roic_1)) / (r - g + f)))
    ∧ (isErr (EV_fade2 nopat_1 roic_1 r f g) = true ↔
        roic_1 = 0 ∨ r - g + f = 0) := by
  unfold EV_fade2
  constructor
  · intro h1 h2
    rw [if_neg h1, if_neg h2]
  · constructor
    · intro h
      by_contra hc
      push_neg at hc
      rw [if_neg hc.1, if_neg hc.2] at h
      simp at h
    · rintro (h | h)
      · rw [if_pos h]
        rfl
      · by_cases hroic : roic_1 = 0
        · rw [if_pos hroic]
          rfl
        · rw [if_neg hroic, if_pos h]
          rfl

/-- Witness for C8: the spec's example
`EV_fade2(100, 0.125, 0.09, 0.2, 0.03) = 11800/13 ≈ 907.69`. -/
theorem EV_fade2_witness :
    EV_fade2 100 (1/8) (9/100) (1/5) (3/100) = Except.ok (11800/13) := by
  have h := (EV_fade2_spec 100 (1/8) (9/100) (1/5) (3/100)).1
    (by norm_num) (by norm_num)
  rw [h]
  norm_num

/-- C9: zero discounting is the identity: for `r > -1`,
`value fcff r 0 = fcff`. -/
theorem value_zero_periods (fcff r : ℝ) (h : r > -1) :
    value fcff r 0 = .ok (.real fcff) := by
  have h1 : (0 : ℝ) < 1 + r := by linarith
  rw [value_of_pow_ok (pypow_exp_zero (1 + r)),
    pydiv_real_of_ne one_ne_zero, div_one]

/-- Witness for C9 at `fcff = 100`, `r = 0.10`. -/
theorem value_zero_periods_witness :
    value 100 (1/10) 0 = Except.ok (.real 100) :=
  value_zero_periods 100 (1/10) (by norm_num)

/-- C10: all seven functions are deterministic: two calls with identical
inputs give identical results (the embedding is pure, mirroring the
source's absence of global or mutable state). -/
theorem determinism_spec (fcff r t nopat ic roic nopat_1 ic_0 roic_1 f g : ℝ)
    (go : Option ℝ) :
    value fcff r t = value fcff r t
    ∧ future_free_cash_flow nopat ic go = future_free_cash_flow nopat ic go
    ∧ return_on_invested_capital nopat ic =
        return_on_invested_capital nopat ic
    ∧ value_2 nopat g roic r = value_2 nopat g roic r
    ∧ economic_profit nopat_1 ic_0 r f g t =
        economic_profit nopat_1 ic_0 r f g t
    ∧ EV_fade nopat_1 ic_0 r f g = EV_fade nopat_1 ic_0 r f g
    ∧ EV_fade2 nopat_1 roic_1 r f g = EV_fade2 nopat_1 roic_1 r f g :=
  ⟨rfl, rfl, rfl, rfl, rfl, rfl, rfl⟩

/-- C1 counterexample: at `fcff = 1`, `r = -2`, `t = 1/2` we have
`1 + r = -1 ≤ 0` with `t` non-integer, so the claim demands a
`DomainError`; the code instead returns normally (a complex number). -/
theorem value_counterexample : isErr (value 1 (-2) (2⁻¹)) = false := by
  have hb : (1 : ℝ) + (-2) < 0 := by norm_num
  have hzC : (((1 : ℝ) + (-2) : ℝ) : ℂ) ^ (((2 : ℝ)⁻¹ : ℝ) : ℂ) ≠ 0 := by
    intro h0
    rcases (Complex.cpow_eq_zero_iff _ _).mp h0 with ⟨h1, -⟩
    rw [Complex.ofReal_eq_zero] at h1
    norm_num at h1
  rw [value_of_pow_ok (pypow_of_neg_nonint hb not_isIntR_half),
    pydiv_complex_of_ne hzC, isErr_ok]

/-- C1 (amended): `value` raises a `DomainError` (Python's
`ZeroDivisionError`) exactly when `1 + r = 0` and `t ≠ 0`; when
`1 + r < 0` and `t` is non-integer it returns the complex number
`fcff / (1+r)^t` rather than raising; in every other case it returns the
real number `fcff / (1+r)^t`. -/
theorem value_amended (fcff r t : ℝ) :
    (isErr (value fcff r t) = true ↔ 1 + r = 0 ∧ t ≠ 0)
    ∧ (1 + r < 0 → ¬ isIntR t →
        value fcff r t =
          .ok (.complex ((fcff : ℂ) / ((1 + r : ℝ) : ℂ) ^ (t : ℂ))))
    ∧ (¬ (1 + r = 0 ∧ t ≠ 0) → ¬ (1 + r < 0 ∧ ¬ isIntR t) →
        value fcff r t = .ok (.real (fcff / (1 + r) ^ t))) := by
  rcases lt_trichotomy (1 + r) 0 with hb | hb | hb
  · by_cases ht : isIntR t
    · have hne : (1 + r) ^ t ≠ 0 :=
        rpow_ne_zero_of_base_ne_zero hb.ne (Or.inr (Or.inr ⟨hb, ht⟩))
      have hv : value fcff r t = .ok (.real (fcff / (1 + r) ^ t)) := by
        rw [value_of_pow_ok (pypow_of_neg_int hb ht),
          pydiv_real_of_ne hne]
      refine ⟨?_, ?_, fun _ _ => hv⟩
      · rw [hv, isErr_ok]
        constructor
        · intro h
          exact absurd h Bool.false_ne_true
        · rintro ⟨h0, -⟩
          exact absurd h0 hb.ne
      · intro _ hnint
        exact absurd ht hnint
    · have hzC : ((1 + r : ℝ) : ℂ) ^ (t : ℂ) ≠ 0 := by
        intro h0
        rcases (Complex.cpow_eq_zero_iff _ _).mp h0 with ⟨h1, -⟩
        rw [Complex.ofReal_eq_zero] at h1
        exact hb.ne h1
      have hv : value fcff r t =
          .ok (.complex ((fcff : ℂ) / ((1 + r : ℝ) : ℂ) ^ (t : ℂ))) := by
        rw [value_of_pow_ok (pypow_of_neg_nonint hb ht),
          pydiv_complex_of_ne hzC]
      refine ⟨?_, fun _ _ => hv, ?_⟩
      · rw [hv, isErr_ok]
        constructor
        · intro h
          exact absurd h Bool.false_ne_true
        · rintro ⟨h0, -⟩
          exact absurd h0 hb.ne
      · intro _ hc
        exact absurd ⟨hb, ht⟩ hc
  · rcases lt_trichotomy t 0 with htn | htz | htp
    · have hp : pypow (1 + r) t = .error .zeroDivisionError := by
        rw [hb]
        exact pypow_zero_of_neg htn
      have hv : value fcff r t = .error .zeroDivisionError :=
        value_of_pow_err hp
      refine ⟨?_, ?_, ?_⟩
      · rw [hv, isErr_error]
        exact ⟨fun _ => ⟨hb, htn.ne⟩, fun _ => rfl⟩
      · intro h2 _
        rw [hb] at h2
        exact absurd h2 (lt_irrefl 0)
      · intro hc _
        exact absurd ⟨hb, htn.ne⟩ hc
    · subst htz
      have hv : value fcff r 0 = .ok (.real (fcff / (1 + r) ^ (0 : ℝ))) := by
        rw [value_of_pow_ok (pypow_exp_zero (1 + r)),
          pydiv_real_of_ne one_ne_zero, Real.rpow_zero]
      refine ⟨?_, ?_, fun _ _ => hv⟩
      · rw [hv, isErr_ok]
        constructor
        · intro h
          exact absurd h Bool.false_ne_true
        · rintro ⟨-, h⟩
          exact absurd rfl h
      · intro h2 _
        rw [hb] at h2
        exact absurd h2 (lt_irrefl 0)
    · have hp : pypow (1 + r) t = .ok (.real 0) := by
        rw [hb, pypow_zero_of_nonneg htp.le, Real.zero_rpow htp.ne']
      have hv : value fcff r t = .error .zeroDivisionError := by
        rw [value_of_pow_ok hp, pydiv_real_zero]
      refine ⟨?_, ?_, ?_⟩
      · rw [hv, isErr_error]
        exact ⟨fun _ => ⟨hb, htp.ne'⟩, fun _ => rfl⟩
      · intro h2 _
        rw [hb] at h2
        exact absurd h2 (lt_irrefl 0)
      · intro hc _
        exact absurd ⟨hb, htp.ne'⟩ hc
  · have hne : (1 + r) ^ t ≠ 0 := (Real.rpow_pos_of_pos hb t).ne'
    have hv : value fcff r t = .ok (.real (fcff / (1 + r) ^ t)) := by
      rw [value_of_pow_ok (pypow_of_pos t hb), pydiv_real_of_ne hne]
    refine ⟨?_, ?_, fun _ _ => hv⟩
    · rw [hv, isErr_ok]
      constructor
      · intro h
        exact absurd h Bool.false_ne_true
      · rintro ⟨h0, -⟩
        exact absurd h0 hb.ne'
    · intro h2 _
      exact absurd h2 hb.asymm

/-- Witness for C1 (amended): the complex case at
`(1, -2, 1/2)`, the error case at `(1, -1, 1)`, and the plain real case at
`(2, 1, 1)`. -/
theorem value_amended_witness :
    value 1 (-2) (2⁻¹) =
      Except.ok (.complex (((1 : ℝ) : ℂ) /
        (((1 : ℝ) + (-2) : ℝ) : ℂ) ^ (((2 : ℝ)⁻¹ : ℝ) : ℂ)))
    ∧ isErr (value 1 (-1) 1) = true
    ∧ value 2 1 1 = Except.ok (.real (2 / (1 + 1) ^ (1 : ℝ))) := by
  refine ⟨(value_amended 1 (-2) (2⁻¹)).2.1 (by norm_num) not_isIntR_half,
    ?_, ?_⟩
  · exact (value_amended 1 (-1) 1).1.mpr ⟨by norm_num, one_ne_zero⟩
  · exact (value_amended 2 1 1).2.2
      (by rintro ⟨h, -⟩; norm_num at h)
      (by rintro ⟨h, -⟩; norm_num at h)

/-- C6 counterexample: at
`(nopat_1, ic_0, r, f, g, t) = (100, 800, 0.09, 1, 0.03, 0)` the claim
demands the formula's value (since `ic_0 = 800 ≠ 0`), but the code raises:
`(1 - f) ** (t - 1) = 0 ** (-1)` is a division by zero. -/
theorem economic_profit_counterexample :
    isErr (economic_profit 100 800 (9/100) 1 (3/100) 0) = true := by
  have hp : pypow ((1 : ℝ) - 1) ((0 : ℝ) - 1) =
      .error .zeroDivisionError := by
    rw [show ((1 : ℝ) - 1) = 0 by norm_num,
      show ((0 : ℝ) - 1) = -1 by norm_num]
    exact pypow_zero_of_neg (by norm_num)
  unfold economic_profit
  rw [if_neg (by norm_num : (800 : ℝ) ≠ 0), hp]
  rfl

/-- C6 (amended): `economic_profit` raises a `DomainError` when
`ic_0 = 0`; for `ic_0 ≠ 0` it returns the real number
`((nopat_1/ic_0) - r) * (1-f)^(t-1) * (1+g)^(t-1) * ic_0` whenever both
power terms are defined and real (positive base, or zero base with
nonnegative exponent, or negative base with integral exponent); in
particular at `t = 1` (the source's default) both powers are `1` and the
result is `((nopat_1/ic_0) - r) * ic_0`. -/
theorem economic_profit_amended (nopat_1 ic_0 r f g t : ℝ) :
    (ic_0 = 0 → isErr (economic_profit nopat_1 ic_0 r f g t) = true)
    ∧ (ic_0 ≠ 0 → powReal (1 - f) (t - 1) → powReal (1 + g) (t - 1) →
        economic_profit nopat_1 ic_0 r f g t =
          .ok (.real (((nopat_1 / ic_0) - r) * (1 - f) ^ (t - 1) *
            (1 + g) ^ (t - 1) * ic_0)))
    ∧ (ic_0 ≠ 0 →
        economic_profit nopat_1 ic_0 r f g 1 =
          .ok (.real (((nopat_1 / ic_0) - r) * ic_0))) := by
  refine ⟨?_, fun h0 h1 h2 => economic_profit_of_powReal h0 h1 h2, ?_⟩
  · intro h
    unfold economic_profit
    rw [if_pos h]
    rfl
  · intro h0
    have hpf : powReal (1 - f) ((1 : ℝ) - 1) := by
      rw [sub_self]
      exact powReal_exp_zero (1 - f)
    have hpg : powReal (1 + g) ((1 : ℝ) - 1) := by
      rw [sub_self]
      exact powReal_exp_zero (1 + g)
    have h : economic_profit nopat_1 ic_0 r f g 1 =
        .ok (.real (((nopat_1 / ic_0) - r) * (1 - f) ^ ((1 : ℝ) - 1) *
          (1 + g) ^ ((1 : ℝ) - 1) * ic_0)) :=
      economic_profit_of_powReal h0 hpf hpg
    rw [h]
    norm_num

/-- Witness for C6 (amended): the spec's example
`economic_profit(100, 800, 0.09, 0.2, 0.03, 1) = 28`, the error case at
`ic_0 = 0`, and a faded period `t = 2` evaluating to `2884/125`. -/
theorem economic_profit_amended_witness :
    economic_profit 100 800 (9/100) (1/5) (3/100) 1 = Except.ok (.real 28)
    ∧ isErr (economic_profit 100 0 (9/100) (1/5) (3/100) 1) = true
    ∧ economic_profit 100 800 (9/100) (1/5) (3/100) 2 =
        Except.ok (.real (2884/125)) := by
  refine ⟨?_,
    (economic_profit_amended 100 0 (9/100) (1/5) (3/100) 1).1 rfl, ?_⟩
  · have h :=
      (economic_profit_amended 100 800 (9/100) (1/5) (3/100) 1).2.2
        (by norm_num)
    rw [h]
    norm_num
  · have h :=
      (economic_profit_amended 100 800 (9/100) (1/5) (3/100) 2).2.1
        (by norm_num) (Or.inl (by norm_num)) (Or.inl (by norm_num))
    rw [h, show ((2 : ℝ) - 1) = 1 by norm_num, Real.rpow_one,
      Real.rpow_one]
    norm_num

end EnterpriseValue
